import Mathlib

/-!
Verification development for the EPGi terminal EPG viewer (src/EPGi.py).

The Python program is shallowly embedded below:
* XMLTV element trees become the inductive `XmlElem` (the program only
  inspects a tree produced by `xml.etree.ElementTree`, never the raw text,
  so the embedding starts at the element level);
* Python dicts (insertion ordered) become association lists with
  `dictSet` / `dictUpdate` reproducing dict assignment and in-place value
  mutation;
* aware `datetime` values are represented by their UTC instant in seconds
  (an `Int`); `datetime.strptime(s, "%Y%m%d%H%M%S %z")` is modelled by
  `parseTimestamp`, covering the canonical two-digit branch of CPython's
  `_strptime` regex (whitespace in the format matches one or more
  whitespace characters, `%z` requires a sign and a `HH[:]MM` offset or
  `Z`, and the `datetime` constructor validates the calendar day and
  `year >= 1`);
* `int()` on a float is truncation toward zero, modelled by `pyInt` on `ℚ`;
* `str.strip` / `str.lower` are modelled by `pyStrip` / `pyLower`
  (case mapping restricted to ASCII, which the claims do not depend on);
* stateful screens become records plus explicit step functions.
-/

namespace EPGi

/-! ### Python string helpers -/

def pyIsSpace (c : Char) : Bool :=
  c = ' ' ∨ c = '\t' ∨ c = '\n' ∨ c = '\r' ∨ c = '\x0b' ∨ c = '\x0c'

def pyStrip (s : String) : String :=
  ⟨((s.data.dropWhile pyIsSpace).reverse.dropWhile pyIsSpace).reverse⟩

def pyToLowerChar (c : Char) : Char :=
  if 'A' ≤ c ∧ c ≤ 'Z' then Char.ofNat (c.toNat + 32) else c

def pyLower (s : String) : String :=
  ⟨s.data.map pyToLowerChar⟩

/-- Python's `needle in hay` on strings: substring containment. -/
def strContainsSub (hay needle : String) : Bool :=
  decide (needle.data <:+: hay.data)

/-- Python `int()` applied to a real value: truncation toward zero. -/
def pyInt (x : ℚ) : Int :=
  if 0 ≤ x then ⌊x⌋ else ⌈x⌉

/-! ### Timestamp parsing: `datetime.strptime(s, "%Y%m%d%H%M%S %z")` -/

def digitVal? (c : Char) : Option Nat :=
  if '0' ≤ c ∧ c ≤ '9' then some (c.toNat - '0'.toNat) else none

/-- Consume two decimal digits. -/
def take2 : List Char → Option (Nat × List Char)
  | c1 :: c2 :: rest =>
    match digitVal? c1, digitVal? c2 with
    | some a, some b => some (a * 10 + b, rest)
    | _, _ => none
  | _ => none

/-- The literal space in the format matches one or more whitespace chars. -/
def takeSpaces1 : List Char → Option (List Char)
  | c :: rest => if pyIsSpace c then some (rest.dropWhile pyIsSpace) else none
  | [] => none

/-- The `%z` directive: `[+-]HH[:]MM` (offset below 24 hours) or `Z`,
followed by end of input; yields the offset in seconds. -/
def parseOffset (cs : List Char) : Option Int :=
  match cs with
  | [] => none
  | c :: rest =>
    if c = 'Z' then (if rest = [] then some 0 else none)
    else if c = '+' ∨ c = '-' then
      match take2 rest with
      | some (hh, rest1) =>
        let rest2 := match rest1 with
          | ':' :: r => r
          | _ => rest1
        match take2 rest2 with
        | some (mm, rest3) =>
          if rest3 = [] ∧ mm ≤ 59 ∧ hh * 60 + mm < 1440 then
            some ((if c = '+' then 1 else -1) * ((hh : Int) * 3600 + mm * 60))
          else none
        | none => none
      | none => none
    else none

def isLeap (y : Nat) : Bool :=
  (y % 4 = 0 ∧ y % 100 ≠ 0) ∨ y % 400 = 0

def daysInMonth (y m : Nat) : Nat :=
  if m = 2 then (if isLeap y then 29 else 28)
  else if m = 4 ∨ m = 6 ∨ m = 9 ∨ m = 11 then 30
  else 31

/-- Days from 1970-01-01 of a civil date (proleptic Gregorian). -/
def daysFromCivil (y m d : Int) : Int :=
  let y1 := if m ≤ 2 then y - 1 else y
  let era := Int.fdiv y1 400
  let yoe := y1 - era * 400
  let doy := (153 * (if 2 < m then m - 3 else m + 9) + 2) / 5 + d - 1
  let doe := yoe * 365 + yoe / 4 - yoe / 100 + doy
  era * 146097 + doe - 719468

/-- Parse `YYYYMMDDHHMMSS` then mandatory whitespace and a UTC offset,
returning the UTC instant in seconds since the epoch. -/
def parseTS (cs : List Char) : Option Int := do
  let (y1, cs1) ← take2 cs
  let (y2, cs2) ← take2 cs1
  let (mo, cs3) ← take2 cs2
  let (dy, cs4) ← take2 cs3
  let (hh, cs5) ← take2 cs4
  let (mi, cs6) ← take2 cs5
  let (ss, cs7) ← take2 cs6
  let y := y1 * 100 + y2
  if 1 ≤ y ∧ 1 ≤ mo ∧ mo ≤ 12 ∧ 1 ≤ dy ∧ dy ≤ daysInMonth y mo ∧
      hh ≤ 23 ∧ mi ≤ 59 ∧ ss ≤ 59 then
    let cs8 ← takeSpaces1 cs7
    let off ← parseOffset cs8
    pure (daysFromCivil y mo dy * 86400 + ((hh * 3600 + mi * 60 + ss : Nat) : Int) - off)
  else none

def parseTimestamp (s : String) : Option Int :=
  parseTS s.data

/-! ### XML element model -/

inductive XmlElem : Type where
  | mk (tag : String) (attrib : List (String × String)) (text : Option String)
       (children : List XmlElem)

def XmlElem.tag : XmlElem → String
  | .mk t _ _ _ => t

def XmlElem.attrib : XmlElem → List (String × String)
  | .mk _ a _ _ => a

def XmlElem.text : XmlElem → Option String
  | .mk _ _ x _ => x

def XmlElem.children : XmlElem → List XmlElem
  | .mk _ _ _ c => c

/-- `elem.get(key)`: attribute lookup. -/
def XmlElem.get (e : XmlElem) (k : String) : Option String :=
  e.attrib.lookup k

/-- `elem.find(tag)`: first direct child with the given tag. -/
def XmlElem.find (e : XmlElem) (t : String) : Option XmlElem :=
  e.children.find? (fun c => c.tag == t)

/-- `elem.findall(tag)`: all direct children with the given tag, in order. -/
def XmlElem.findall (e : XmlElem) (t : String) : List XmlElem :=
  e.children.filter (fun c => c.tag == t)

/-! ### Python dict model (insertion ordered association list) -/

/-- `d[k] = v`: replace in place if present, else append. -/
def dictSet {α : Type} (m : List (String × α)) (k : String) (v : α) :
    List (String × α) :=
  if (m.lookup k).isSome then
    m.map (fun p => if p.1 = k then (k, v) else p)
  else m ++ [(k, v)]

/-- In-place mutation of the value stored under `k`. -/
def dictUpdate {α : Type} (m : List (String × α)) (k : String) (f : α → α) :
    List (String × α) :=
  m.map (fun p => if p.1 = k then (p.1, f p.2) else p)

/-! ### Data model -/

/-- Value in a programme's attribute mapping: Python stores either a single
string or a list of strings. -/
inductive AttrValue : Type where
  | str (s : String)
  | list (l : List String)
deriving DecidableEq

structure Programme where
  title : Option String
  start : Int
  stop : Int
  attributes : List (String × AttrValue)
deriving DecidableEq

structure ChannelRec where
  name : String
  programmes : List Programme
deriving DecidableEq

/-! ### `EPGProvider._parse_xml` -/

/-- Lines 68-72: a channel element is kept when it has a truthy `id`
attribute and a `display-name` child with truthy text. -/
def parseChannelElem? (e : XmlElem) : Option (String × ChannelRec) :=
  match e.get "id" with
  | none => none
  | some i =>
    if i = "" then none
    else match e.find "display-name" with
      | none => none
      | some dn =>
        match dn.text with
        | none => none
        | some t => if t = "" then none else some (i, ⟨t, []⟩)

def chanStep (m : List (String × ChannelRec)) (e : XmlElem) :
    List (String × ChannelRec) :=
  match parseChannelElem? e with
  | some (i, r) => dictSet m i r
  | none => m

def foldChannels (es : List XmlElem) : List (String × ChannelRec) :=
  es.foldl chanStep []

/-- Lines 79-80: `title_elem.text if title_elem is not None else "No Title"`. -/
def parseTitle (e : XmlElem) : Option String :=
  match e.find "title" with
  | none => some "No Title"
  | some te => te.text

/-- Lines 91-96: insert a child's stripped text under its tag, collapsing
collisions into a list. -/
def addAttrText (m : List (String × AttrValue)) (tag v : String) :
    List (String × AttrValue) :=
  match m.lookup tag with
  | none => dictSet m tag (.str v)
  | some (.str old) => dictSet m tag (.list [old, v])
  | some (.list l) => dictSet m tag (.list (l ++ [v]))

/-- One child of the programme element: only children with truthy text whose
strip is non-empty contribute (line 88). -/
def attrStep (m : List (String × AttrValue)) (c : XmlElem) :
    List (String × AttrValue) :=
  match c.text with
  | some t => if pyStrip t = "" then m else addAttrText m c.tag (pyStrip t)
  | none => m

/-- Line 86: `attributes = {**prog_elem.attrib}`. -/
def attribDict (l : List (String × String)) : List (String × AttrValue) :=
  l.foldl (fun m p => dictSet m p.1 (AttrValue.str p.2)) []

/-- Lines 86-96: the full attribute mapping of a programme element. -/
def buildAttributes (e : XmlElem) : List (String × AttrValue) :=
  e.children.foldl attrStep (attribDict e.attrib)

/-- Lines 78-103: build one programme; `none` when `start` or `stop` is
missing or unparsable (TypeError / ValueError is caught and the programme
skipped). -/
def parseProgramme (e : XmlElem) : Option Programme := do
  let title := parseTitle e
  let start ← (e.get "start").bind parseTimestamp
  let stop ← (e.get "stop").bind parseTimestamp
  pure { title := title, start := start, stop := stop,
         attributes := buildAttributes e }

/-- Lines 75-106: process one programme element against the channel map. -/
def progStep (m : List (String × ChannelRec)) (e : XmlElem) :
    List (String × ChannelRec) :=
  match e.get "channel" with
  | none => m
  | some i =>
    if (m.lookup i).isSome then
      match parseProgramme e with
      | some p => dictUpdate m i (fun r => { r with programmes := r.programmes ++ [p] })
      | none => m
    else m

def attachProgrammes (m : List (String × ChannelRec)) (es : List XmlElem) :
    List (String × ChannelRec) :=
  es.foldl progStep m

/-- `key=lambda p: p['start']` — aware datetimes compare by UTC instant. -/
def progLE (a b : Programme) : Prop := a.start ≤ b.start

instance : DecidableRel progLE :=
  fun a b => inferInstanceAs (Decidable (a.start ≤ b.start))

/-- Python string comparison: lexicographic on code points. -/
def charListLE : List Char → List Char → Bool
  | [], _ => true
  | _ :: _, [] => false
  | a :: as, b :: bs =>
    if a.toNat < b.toNat then true
    else if a.toNat = b.toNat then charListLE as bs
    else false

def pyStrLE (a b : String) : Bool := charListLE a.data b.data

/-- `key=lambda c: c['name']`. -/
def nameLE (a b : ChannelRec) : Prop := pyStrLE a.name b.name = true

instance : DecidableRel nameLE :=
  fun a b => inferInstanceAs (Decidable (pyStrLE a.name b.name = true))

/-- Lines 108-113: sort each channel's programme list by start, take the
dict's values, sort them by display name. -/
def sortedChannelRecs (m : List (String × ChannelRec)) : List ChannelRec :=
  m.map (fun p => { p.2 with programmes := List.insertionSort progLE p.2.programmes })

/-- Lines 63-115: `EPGProvider._parse_xml` from the element-tree root. -/
def parse_xml (root : XmlElem) : List ChannelRec :=
  List.insertionSort nameLE
    (sortedChannelRecs
      (attachProgrammes (foldChannels (root.findall "channel"))
        (root.findall "programme")))

/-! ### `EPGProvider.get_channels` (lines 27-61) -/

/-- Outcome of the fetch + decompress + XML-parse pipeline: either an
element-tree root, or one of the failure modes caught on lines 51-58. -/
inductive FetchResult : Type where
  | success (root : XmlElem)
  | transportError
  | decompressionError
  | xmlParseError
  | unexpectedError

/-- `get_channels` as a function of the cache field `_channel_data` and the
fetch outcome; returns the result list and the new cache. All failure
modes are caught inside the method, so it is total. -/
def getChannels (cache : Option (List ChannelRec)) (fetch : FetchResult) :
    List ChannelRec × Option (List ChannelRec) :=
  match cache with
  | some d => (d, some d)
  | none =>
    match fetch with
    | .success root => (parse_xml root, some (parse_xml root))
    | _ => ([], some [])

/-! ### Screen 2 data (lines 275-300) -/

structure Row where
  channel : ChannelRec
  program : Programme
deriving DecidableEq

def matchesNow (now : ℚ) (p : Programme) : Bool :=
  decide ((p.start : ℚ) ≤ now ∧ now < (p.stop : ℚ))

/-- Lines 282-285: inner loop with `break` — first programme covering `now`. -/
def currentProgramme (progs : List Programme) (now : ℚ) : Option Programme :=
  progs.find? (matchesNow now)

/-- Lines 280-287: one row per channel currently airing something. -/
def loadData (chs : List ChannelRec) (now : ℚ) : List Row :=
  chs.filterMap (fun ch => (currentProgramme ch.programmes now).map (fun p => ⟨ch, p⟩))

/-- Lines 290-298: `Screen2._apply_filter`'s list computation. -/
def matchRow (t : String) (r : Row) : Bool :=
  strContainsSub (pyLower r.channel.name) (pyLower t)

def applyFilter (rows : List Row) (t : String) : List Row :=
  if t = "" then rows else rows.filter (matchRow t)

/-! ### Progress calculation (lines 327-335) -/

def progressPercent (start stop now : ℚ) : Int :=
  let duration := stop - start
  let elapsed := now - start
  if 0 < duration then min 100 (max 0 (pyInt (elapsed / duration * 100))) else 0

/-- The formula as the specification words it, with `round`. -/
def progressPercentSpec (start stop now : ℚ) : Int :=
  if start < stop then
    min 100 (max 0 (round (100 * (now - start) / (stop - start))))
  else 0

def progressBar (percent : Int) : String :=
  let filledBlocks := pyInt (((10 * percent : Int) : ℚ) / 100)
  ⟨List.replicate filledBlocks.toNat '█' ++ List.replicate (10 - filledBlocks).toNat ' '⟩

/-! ### Navigation state machine (`handle_input` of Screens 1-3)

Indices are `Int`, as in Python, so that the effect of the `min`/`max`
clamps on an empty list (`n - 1 = -1`) is preserved. The navigation keys
below are the six viewport-moving keys; Left/Right/Enter/Escape return an
action without touching `current_line`/`top_line` and are omitted. -/

inductive NavKey : Type where
  | up | down | home | endKey | ppage | npage
deriving DecidableEq

def navNewCurrent (n ps cur : Int) : NavKey → Int
  | .up => max 0 (cur - 1)
  | .down => min (n - 1) (cur + 1)
  | .home => 0
  | .endKey => n - 1
  | .ppage => max 0 (cur - ps)
  | .npage => min (n - 1) (cur + ps)

/-- The trailing viewport adjustment shared by Screens 1-3. -/
def navAdjustTop (ps cur top : Int) : Int :=
  if cur < top then cur
  else if top + ps ≤ cur then cur - ps + 1
  else top

structure Screen1State where
  providers : List String
  currentLine : Int
  topLine : Int

/-- Lines 229-257: `Screen1.handle_input` (navigation keys),
`ps = height - 2`. -/
def screen1HandleInput (ps : Int) (st : Screen1State) (k : NavKey) : Screen1State :=
  let n : Int := st.providers.length
  let cur := navNewCurrent n ps st.currentLine k
  { st with currentLine := cur, topLine := navAdjustTop ps cur st.topLine }

structure Screen3State where
  programmes : List Programme
  currentLine : Int
  topLine : Int

/-- Lines 452-481: `Screen3.handle_input` (navigation keys). -/
def screen3HandleInput (ps : Int) (st : Screen3State) (k : NavKey) : Screen3State :=
  let n : Int := st.programmes.length
  let cur := navNewCurrent n ps st.currentLine k
  { st with currentLine := cur, topLine := navAdjustTop ps cur st.topLine }

structure Screen2State where
  allChannels : List Row
  filterText : String
  filteredChannels : List Row
  currentLine : Int
  topLine : Int

inductive Screen2Key : Type where
  | nav (k : NavKey)
  | filterInput (t : String)
  | clearFilter

/-- Lines 290-300: `Screen2._apply_filter`. -/
def screen2ApplyFilter (st : Screen2State) : Screen2State :=
  { st with filteredChannels := applyFilter st.allChannels st.filterText,
            currentLine := 0, topLine := 0 }

/-- Lines 364-399: `Screen2.handle_input` (navigation and filter keys); the
viewport adjustment runs after every branch. -/
def screen2HandleInput (ps : Int) (st : Screen2State) (k : Screen2Key) : Screen2State :=
  let n : Int := st.filteredChannels.length
  let st1 := match k with
    | .nav kb => { st with currentLine := navNewCurrent n ps st.currentLine kb }
    | .filterInput t => screen2ApplyFilter { st with filterText := t }
    | .clearFilter => screen2ApplyFilter { st with filterText := "" }
  { st1 with topLine := navAdjustTop ps st1.currentLine st1.topLine }

/-- The viewport invariant exactly as the claim states it. -/
def viewInv (n ps cur top : Int) : Prop :=
  if 0 < n then 0 ≤ cur ∧ cur < n ∧ top ≤ cur ∧ cur < top + ps ∧ 0 ≤ top
  else cur = 0 ∧ top = 0

instance (n ps cur top : Int) : Decidable (viewInv n ps cur top) := by
  unfold viewInv; infer_instance

/-- The invariant the code actually maintains: for `n = 0` both indices
stay in `{-1, 0}` instead of being pinned at `0`. -/
def viewInvFixed (n ps cur top : Int) : Prop :=
  if 0 < n then 0 ≤ cur ∧ cur < n ∧ top ≤ cur ∧ cur < top + ps ∧ 0 ≤ top
  else -1 ≤ cur ∧ cur ≤ 0 ∧ -1 ≤ top ∧ top ≤ 0

instance (n ps cur top : Int) : Decidable (viewInvFixed n ps cur top) := by
  unfold viewInvFixed; infer_instance

def screen1Inv (ps : Int) (st : Screen1State) : Prop :=
  viewInvFixed st.providers.length ps st.currentLine st.topLine

instance (ps : Int) (st : Screen1State) : Decidable (screen1Inv ps st) := by
  unfold screen1Inv; infer_instance

def screen2Inv (ps : Int) (st : Screen2State) : Prop :=
  viewInvFixed st.filteredChannels.length ps st.currentLine st.topLine

instance (ps : Int) (st : Screen2State) : Decidable (screen2Inv ps st) := by
  unfold screen2Inv; infer_instance

def screen3Inv (ps : Int) (st : Screen3State) : Prop :=
  viewInvFixed st.programmes.length ps st.currentLine st.topLine

instance (ps : Int) (st : Screen3State) : Decidable (screen3Inv ps st) := by
  unfold screen3Inv; infer_instance

/-! ### Characterizations used by the claims about attribute collapsing and
duplicate channel ids -/

/-- Stripped text of a child when it is counted by the attribute loop and
its tag is `k`. -/
def childText? (k : String) (c : XmlElem) : Option String :=
  if c.tag = k then
    match c.text with
    | some t => if pyStrip t = "" then none else some (pyStrip t)
    | none => none
  else none

def childTexts (k : String) (cs : List XmlElem) : List String :=
  cs.filterMap (childText? k)

/-- Fold a sequence of child texts onto an optional existing value, the way
lines 91-96 collapse collisions. -/
def collapseTexts : Option AttrValue → List String → Option AttrValue
  | v, [] => v
  | none, t :: ts => collapseTexts (some (.str t)) ts
  | some (.str a), t :: ts => collapseTexts (some (.list [a, t])) ts
  | some (.list l), t :: ts => collapseTexts (some (.list (l ++ [t]))) ts

/-- The channel record `e` offers for id `i`: its parse result when `e` is
a valid channel element with that id. -/
def chanOffer (i : String) (e : XmlElem) : Option ChannelRec :=
  match parseChannelElem? e with
  | some (j, r) => if j = i then some r else none
  | none => none

/-- The last element of `es` (document order) that is a valid channel
element carrying id `i`, as a channel record. Follows the claim's words
("the parser keeps only the last valid such element"). -/
def lastValidChannelSpec (es : List XmlElem) (i : String) : Option ChannelRec :=
  es.reverse.findSome? (chanOffer i)

/-- The programme produced by element `e` when it references channel `i`. -/
def progFor (i : String) (e : XmlElem) : Option Programme :=
  match e.get "channel" with
  | some j => if j = i then parseProgramme e else none
  | none => none

/-! ### Concrete feeds used by counterexamples and witnesses -/

/-- Feed whose programme `start` lacks the UTC offset suffix. -/
def c5root : XmlElem :=
  .mk "tv" [] none
    [ .mk "channel" [("id", "1")] none [ .mk "display-name" [] (some "News") [] ],
      .mk "programme"
        [("channel", "1"), ("start", "20240101100000"), ("stop", "20240101110000 +0000")]
        none [ .mk "title" [] (some "Show") [] ] ]

/-- The offending programme element of `c5root` on its own. -/
def c5badProg : XmlElem :=
  .mk "programme"
    [("channel", "1"), ("start", "20240101100000"), ("stop", "20240101110000 +0000")]
    none [ .mk "title" [] (some "Show") [] ]

/-- Programme element with an XML attribute `sub-title` and a child tag of
the same name. -/
def c6elem : XmlElem :=
  .mk "programme"
    [("channel", "1"), ("start", "20240101100000 +0000"),
     ("stop", "20240101110000 +0000"), ("sub-title", "Attr")]
    none
    [ .mk "title" [] (some "T") [], .mk "sub-title" [] (some "Child") [] ]

/-- Feed containing `c6elem`. -/
def c6root : XmlElem :=
  .mk "tv" [] none
    [ .mk "channel" [("id", "1")] none [ .mk "display-name" [] (some "News") [] ],
      c6elem ]

/-- The programme record `c6root` parses to. -/
def c6prog : Programme :=
  { title := some "T", start := 1704103200, stop := 1704106800,
    attributes := [("channel", .str "1"), ("start", .str "20240101100000 +0000"),
                   ("stop", .str "20240101110000 +0000"),
                   ("sub-title", .list ["Attr", "Child"]), ("title", .str "T")] }

/-- Feed whose programme has a `title` child that is present but empty. -/
def c9root : XmlElem :=
  .mk "tv" [] none
    [ .mk "channel" [("id", "1")] none [ .mk "display-name" [] (some "News") [] ],
      .mk "programme"
        [("channel", "1"), ("start", "20240101100000 +0000"), ("stop", "20240101110000 +0000")]
        none [ .mk "title" [] none [] ] ]

/-- The programme record `c9root` parses to: its title is `none`. -/
def c9prog : Programme :=
  { title := none, start := 1704103200, stop := 1704106800,
    attributes := [("channel", .str "1"), ("start", .str "20240101100000 +0000"),
                   ("stop", .str "20240101110000 +0000")] }

/-- Feed with two channels out of name order and two programmes out of
start order. -/
def c7root : XmlElem :=
  .mk "tv" [] none
    [ .mk "channel" [("id", "2")] none [ .mk "display-name" [] (some "B") [] ],
      .mk "channel" [("id", "1")] none [ .mk "display-name" [] (some "A") [] ],
      .mk "programme"
        [("channel", "1"), ("start", "20240101120000 +0000"), ("stop", "20240101130000 +0000")]
        none [ .mk "title" [] (some "Late") [] ],
      .mk "programme"
        [("channel", "1"), ("start", "20240101100000 +0000"), ("stop", "20240101110000 +0000")]
        none [ .mk "title" [] (some "Early") [] ] ]

/-- The record for channel "A" in `parse_xml c7root`, programmes sorted. -/
def c7chanA : ChannelRec :=
  { name := "A",
    programmes :=
      [ { title := some "Early", start := 1704103200, stop := 1704106800,
          attributes := [("channel", .str "1"), ("start", .str "20240101100000 +0000"),
                         ("stop", .str "20240101110000 +0000"), ("title", .str "Early")] },
        { title := some "Late", start := 1704110400, stop := 1704114000,
          attributes := [("channel", .str "1"), ("start", .str "20240101120000 +0000"),
                         ("stop", .str "20240101130000 +0000"), ("title", .str "Late")] } ] }

/-- Two valid channel elements sharing id "1". -/
def c10elemA : XmlElem :=
  .mk "channel" [("id", "1")] none [ .mk "display-name" [] (some "A") [] ]

def c10elemB : XmlElem :=
  .mk "channel" [("id", "1")] none [ .mk "display-name" [] (some "B") [] ]

def c10prog : XmlElem :=
  .mk "programme"
    [("channel", "1"), ("start", "20240101100000 +0000"), ("stop", "20240101110000 +0000")]
    none [ .mk "title" [] (some "Show") [] ]

/-! ## Helper lemmas -/

theorem charListLE_total : ∀ (a b : List Char),
    charListLE a b = true ∨ charListLE b a = true
  | [], _ => Or.inl rfl
  | _ :: _, [] => Or.inr rfl
  | a :: as, b :: bs => by
    by_cases h1 : a.toNat < b.toNat
    · left
      simp [charListLE, h1]
    · by_cases h2 : a.toNat = b.toNat
      · rcases charListLE_total as bs with h | h
        · left
          simp [charListLE, h1, h2, h]
        · right
          have h1' : ¬ b.toNat < a.toNat := by omega
          have h2' : b.toNat = a.toNat := by omega
          simp [charListLE, h1', h2', h]
      · right
        have h3 : b.toNat < a.toNat := by omega
        simp [charListLE, h3]

theorem charListLE_trans : ∀ (a b c : List Char),
    charListLE a b = true → charListLE b c = true → charListLE a c = true
  | [], _, _, _, _ => rfl
  | _ :: _, [], _, h, _ => by simp [charListLE] at h
  | _ :: _, _ :: _, [], _, h => by simp [charListLE] at h
  | a :: as, b :: bs, c :: cs, h1, h2 => by
    simp only [charListLE] at h1 h2 ⊢
    split_ifs at h1 h2 ⊢ <;>
      first
        | rfl
        | omega
        | exact charListLE_trans as bs cs h1 h2

instance : IsTotal Programme progLE :=
  ⟨fun a b => le_total a.start b.start⟩

instance : IsTrans Programme progLE :=
  ⟨fun _ _ _ hab hbc => le_trans hab hbc⟩

instance : IsTotal ChannelRec nameLE :=
  ⟨fun a b => charListLE_total a.name.data b.name.data⟩

instance : IsTrans ChannelRec nameLE :=
  ⟨fun _ _ _ hab hbc => charListLE_trans _ _ _ hab hbc⟩

theorem max_zero_pyInt (x : ℚ) : max 0 (pyInt x) = max 0 ⌊x⌋ := by
  unfold pyInt
  split
  · rfl
  · rename_i h
    push_neg at h
    have h1 : ⌈x⌉ ≤ 0 := Int.ceil_le.mpr (by exact_mod_cast h.le)
    have h2 : ⌊x⌋ ≤ 0 := Int.floor_nonpos h.le
    omega

/-! ## C1: get_channels never throws, failures yield a cached empty snapshot -/

/-- C1. `getChannels` is a total function of the cache and the fetch
outcome (every failure mode is caught inside the method). On a cache miss,
each failure mode returns the empty channel list and caches it; a
populated cache is returned as-is; and after any first call, a second call
returns the same snapshot without consulting the fetch result. -/
theorem c1_getChannels_failure_cached :
    ∀ (d : List ChannelRec) (f f2 : FetchResult),
      getChannels none .transportError = ([], some [])
    ∧ getChannels none .decompressionError = ([], some [])
    ∧ getChannels none .xmlParseError = ([], some [])
    ∧ getChannels none .unexpectedError = ([], some [])
    ∧ getChannels (some d) f = (d, some d)
    ∧ getChannels (getChannels none f).2 f2
        = ((getChannels none f).1, (getChannels none f).2) := by
  intro d f f2
  refine ⟨rfl, rfl, rfl, rfl, rfl, ?_⟩
  cases f <;> rfl

/-! ## C2: currently-airing resolution -/

/-- C2. `currentProgramme` finds a programme exactly when one satisfies
`start <= now < stop`; among several matches the first in list order wins;
and a channel contributes a row to the currently-playing view exactly when
its resolution succeeds (channels with no match are omitted). -/
theorem c2_current_resolution : ∀ now : ℚ,
    (∀ progs : List Programme,
        (currentProgramme progs now).isSome ↔
          ∃ p, p ∈ progs ∧ (p.start : ℚ) ≤ now ∧ now < (p.stop : ℚ))
  ∧ (∀ (l₁ l₂ : List Programme) (p : Programme),
        (p.start : ℚ) ≤ now → now < (p.stop : ℚ) →
        (∀ q, q ∈ l₁ → ¬((q.start : ℚ) ≤ now ∧ now < (q.stop : ℚ))) →
        currentProgramme (l₁ ++ p :: l₂) now = some p)
  ∧ (∀ (chs : List ChannelRec) (ch : ChannelRec), ch ∈ chs →
        ((∃ r, r ∈ loadData chs now ∧ r.channel = ch) ↔
          (currentProgramme ch.programmes now).isSome)) := by
  intro now
  refine ⟨?_, ?_, ?_⟩
  · intro progs
    simp [currentProgramme, List.find?_isSome, matchesNow]
  · intro l₁ l₂ p hs he hnone
    induction l₁ with
    | nil =>
      simpa [currentProgramme] using
        List.find?_cons_of_pos (p := matchesNow now) (a := p) l₂
          (by simp [matchesNow]; exact ⟨hs, he⟩)
    | cons q l ih =>
      have hq : matchesNow now q = false := by
        have hn := hnone q (by simp)
        simp only [matchesNow, decide_eq_false_iff_not]
        exact hn
      simp only [currentProgramme] at ih ⊢
      rw [List.cons_append, List.find?_cons_of_neg _ (by simp [hq])]
      exact ih (fun q' hq' => hnone q' (by simp [hq']))
  · intro chs ch hch
    constructor
    · rintro ⟨r, hr, hrc⟩
      simp only [loadData, List.mem_filterMap] at hr
      obtain ⟨ch2, _, hmap⟩ := hr
      cases hcp : currentProgramme ch2.programmes now with
      | none => rw [hcp] at hmap; simp at hmap
      | some p =>
        rw [hcp] at hmap
        simp only [Option.map_some'] at hmap
        have hr2 : r = ⟨ch2, p⟩ := by
          cases hmap
          rfl
        subst hr2
        have hc2 : ch2 = ch := hrc
        rw [← hc2, hcp]
        rfl
    · intro hsome
      rw [Option.isSome_iff_exists] at hsome
      obtain ⟨p, hp⟩ := hsome
      refine ⟨⟨ch, p⟩, ?_, rfl⟩
      simp only [loadData, List.mem_filterMap]
      exact ⟨ch, hch, by rw [hp]; rfl⟩

/-- Closed instantiation of C2's first-match clause. -/
theorem c2_witness :
    currentProgramme [⟨some "T", 5, 15, []⟩] 10 = some ⟨some "T", 5, 15, []⟩ :=
  (c2_current_resolution 10).2.1 [] [] ⟨some "T", 5, 15, []⟩
    (by norm_num) (by norm_num) (by simp)

/-! ## C4: progress percentage -/

/-- C4 counterexample. The code truncates (`int()`), the claim rounds: at
`start = 0`, `stop = 1000`, `now = 567` the code shows 56%, while
`clamp(0, 100, round(100 * 567 / 1000)) = 57`. -/
theorem c4_counterexample :
    progressPercent 0 1000 567 = 56
  ∧ progressPercentSpec 0 1000 567 = 57
  ∧ progressPercent 0 1000 567 ≠ progressPercentSpec 0 1000 567 := by
  refine ⟨?_, ?_, ?_⟩
  · norm_num [progressPercent, pyInt]
  · norm_num [progressPercentSpec, round_eq]
  · norm_num [progressPercent, progressPercentSpec, pyInt, round_eq]

/-- C4 amended. The percent equals
`clamp(0, 100, floor(100 * (now - start) / (stop - start)))` (truncation
toward zero, which after the clamp coincides with floor) when
`stop > start`; it is 0 unconditionally when `stop <= start`; it always
lies in `[0, 100]`; and the 10-cell bar has `floor(10 * percent / 100)`
filled cells followed by blanks. -/
theorem c4_amended : ∀ start stop now : ℚ,
    (stop ≤ start → progressPercent start stop now = 0)
  ∧ 0 ≤ progressPercent start stop now
  ∧ progressPercent start stop now ≤ 100
  ∧ (start < stop →
      progressPercent start stop now =
        min 100 (max 0 ⌊100 * (now - start) / (stop - start)⌋))
  ∧ (∀ p : Int, 0 ≤ p → p ≤ 100 →
      (progressBar p).data =
        List.replicate (10 * p / 100).toNat '█' ++
        List.replicate (10 - 10 * p / 100).toNat ' ')
  ∧ (∀ p : Int, 0 ≤ p → p ≤ 100 → (progressBar p).length = 10) := by
  have hfb : ∀ p : Int, 0 ≤ p →
      pyInt (((10 * p : Int) : ℚ) / 100) = 10 * p / 100 := by
    intro p hp
    have h0 : (0 : ℚ) ≤ ((10 * p : Int) : ℚ) / 100 := by
      have : (0 : ℚ) ≤ ((10 * p : Int) : ℚ) := by exact_mod_cast by omega
      exact div_nonneg this (by norm_num)
    unfold pyInt
    rw [if_pos h0]
    have h := Rat.floor_intCast_div_natCast (10 * p) 100
    simpa using h
  intro start stop now
  refine ⟨?_, ?_, ?_, ?_, ?_, ?_⟩
  · intro h
    have hns : ¬(0 < stop - start) := by
      push_neg
      exact sub_nonpos.mpr h
    simp [progressPercent, hns]
  · by_cases hd : 0 < stop - start
    · simp only [progressPercent, if_pos hd]
      exact le_min (by norm_num) (le_max_left _ _)
    · simp only [progressPercent, if_neg hd]
      norm_num
  · by_cases hd : 0 < stop - start
    · simp only [progressPercent, if_pos hd]
      exact min_le_left _ _
    · simp only [progressPercent, if_neg hd]
      norm_num
  · intro h
    have hpos : 0 < stop - start := sub_pos.mpr h
    unfold progressPercent
    rw [if_pos hpos, max_zero_pyInt]
    have harg : (now - start) / (stop - start) * 100
        = 100 * (now - start) / (stop - start) := by ring
    rw [harg]
  · intro p hp0 hp100
    simp only [progressBar]
    rw [hfb p hp0]
  · intro p hp0 hp100
    have hlen : (progressBar p).length = (progressBar p).data.length := rfl
    rw [hlen]
    simp only [progressBar]
    rw [hfb p hp0]
    simp only [List.length_append, List.length_replicate]
    omega

/-! ## C3: viewport invariant under navigation input -/

theorem viewInvFixed_step (n ps cur top : Int) (k : NavKey) (hps : 1 ≤ ps)
    (hn : 0 ≤ n) (h : viewInvFixed n ps cur top) :
    viewInvFixed n ps (navNewCurrent n ps cur k)
      (navAdjustTop ps (navNewCurrent n ps cur k) top) := by
  unfold viewInvFixed navAdjustTop at *
  cases k <;> simp only [navNewCurrent] <;> split_ifs at h ⊢ <;> omega

theorem screen1Inv_step (ps : Int) (hps : 1 ≤ ps) (st : Screen1State)
    (k : NavKey) (h : screen1Inv ps st) :
    screen1Inv ps (screen1HandleInput ps st k) := by
  have hn : (0 : Int) ≤ (st.providers.length : Int) := by exact_mod_cast Nat.zero_le _
  exact viewInvFixed_step _ ps _ _ k hps hn h

theorem screen3Inv_step (ps : Int) (hps : 1 ≤ ps) (st : Screen3State)
    (k : NavKey) (h : screen3Inv ps st) :
    screen3Inv ps (screen3HandleInput ps st k) := by
  have hn : (0 : Int) ≤ (st.programmes.length : Int) := by exact_mod_cast Nat.zero_le _
  exact viewInvFixed_step _ ps _ _ k hps hn h

theorem screen2Inv_step (ps : Int) (hps : 1 ≤ ps) (st : Screen2State)
    (k : Screen2Key) (h : screen2Inv ps st) :
    screen2Inv ps (screen2HandleInput ps st k) := by
  cases k with
  | nav kb =>
    have hn : (0 : Int) ≤ (st.filteredChannels.length : Int) := by
      exact_mod_cast Nat.zero_le _
    exact viewInvFixed_step _ ps _ _ kb hps hn h
  | filterInput t =>
    have hn : (0 : Int) ≤ ((applyFilter st.allChannels t).length : Int) := by
      exact_mod_cast Nat.zero_le _
    show viewInvFixed ((applyFilter st.allChannels t).length) ps 0
      (navAdjustTop ps 0 0)
    unfold viewInvFixed navAdjustTop
    split_ifs <;> omega
  | clearFilter =>
    have hn : (0 : Int) ≤ ((applyFilter st.allChannels "").length : Int) := by
      exact_mod_cast Nat.zero_le _
    show viewInvFixed ((applyFilter st.allChannels "").length) ps 0
      (navAdjustTop ps 0 0)
    unfold viewInvFixed navAdjustTop
    split_ifs <;> omega

/-- C3 counterexample. The claim's invariant pins both indices at 0 on an
empty list, but on an empty provider list (row count 0) a single Down key
drives `current_line` to `min(-1, 1) = -1` and then `top_line` to `-1`. -/
theorem c3_counterexample :
    viewInv ((([] : List String)).length : Int) 10 0 0
  ∧ (screen1HandleInput 10 ⟨[], 0, 0⟩ NavKey.down).currentLine = -1
  ∧ (screen1HandleInput 10 ⟨[], 0, 0⟩ NavKey.down).topLine = -1
  ∧ ¬ viewInv ((([] : List String)).length : Int) 10
        (screen1HandleInput 10 ⟨[], 0, 0⟩ NavKey.down).currentLine
        (screen1HandleInput 10 ⟨[], 0, 0⟩ NavKey.down).topLine := by
  refine ⟨by decide, by decide, by decide, by decide⟩

/-- C3 amended. With `pageSize >= 1`, every sequence of navigation (and,
for the channel list, filter) inputs preserves: when `n > 0`, the claimed
invariant `0 <= selectedIndex < n`, `viewportTop <= selectedIndex <
viewportTop + pageSize`, `0 <= viewportTop`; when `n = 0`, both indices
stay in `{-1, 0}` (a Down/End/PageDown on an empty list sets them to `-1`,
not `0` as claimed). -/
theorem c3_amended : ∀ ps : Int, 1 ≤ ps →
    (∀ (st : Screen1State) (ks : List NavKey), screen1Inv ps st →
      screen1Inv ps (ks.foldl (screen1HandleInput ps) st))
  ∧ (∀ (st : Screen2State) (ks : List Screen2Key), screen2Inv ps st →
      screen2Inv ps (ks.foldl (screen2HandleInput ps) st))
  ∧ (∀ (st : Screen3State) (ks : List NavKey), screen3Inv ps st →
      screen3Inv ps (ks.foldl (screen3HandleInput ps) st)) := by
  intro ps hps
  refine ⟨?_, ?_, ?_⟩
  · intro st ks h
    induction ks generalizing st with
    | nil => exact h
    | cons k ks ih => exact ih _ (screen1Inv_step ps hps st k h)
  · intro st ks h
    induction ks generalizing st with
    | nil => exact h
    | cons k ks ih => exact ih _ (screen2Inv_step ps hps st k h)
  · intro st ks h
    induction ks generalizing st with
    | nil => exact h
    | cons k ks ih => exact ih _ (screen3Inv_step ps hps st k h)

/-- Closed instantiation of C3's amended invariant on a 1-row provider
list. -/
theorem c3_witness :
    screen1Inv 5 ⟨["u"], 0, 0⟩
  ∧ screen1Inv 5
      ([NavKey.down, NavKey.down].foldl (screen1HandleInput 5) ⟨["u"], 0, 0⟩) :=
  ⟨by decide,
   (c3_amended 5 (by norm_num)).1 ⟨["u"], 0, 0⟩ [NavKey.down, NavKey.down] (by decide)⟩

/-! ## C8: filter engine -/

/-- C8. The filter is pure: empty text is the identity; the result is a
sublist of the input (relative order preserved); membership is exactly
case-insensitive substring matching on the channel display name; and
applying the same text twice equals applying it once. -/
theorem c8_filter : ∀ (rows : List Row) (t : String),
    applyFilter rows "" = rows
  ∧ (applyFilter rows t).Sublist rows
  ∧ (∀ r, r ∈ applyFilter rows t ↔ r ∈ rows ∧ (t = "" ∨ matchRow t r = true))
  ∧ applyFilter (applyFilter rows t) t = applyFilter rows t := by
  intro rows t
  refine ⟨by simp [applyFilter], ?_, ?_, ?_⟩
  · unfold applyFilter
    split
    · exact List.Sublist.refl rows
    · exact List.filter_sublist rows
  · intro r
    unfold applyFilter
    split
    · rename_i ht
      simp [ht]
    · rename_i ht
      simp [List.mem_filter, ht]
  · unfold applyFilter
    split
    · rfl
    · rw [List.filter_filter]
      simp [Bool.and_self]

/-- Closed instantiation of C8: identity on empty text and idempotence of
a non-empty filter. -/
theorem c8_witness :
    applyFilter [⟨⟨"News", []⟩, ⟨some "T", 0, 1, []⟩⟩] ""
      = [⟨⟨"News", []⟩, ⟨some "T", 0, 1, []⟩⟩]
  ∧ applyFilter (applyFilter [⟨⟨"News", []⟩, ⟨some "T", 0, 1, []⟩⟩] "ew") "ew"
      = applyFilter [⟨⟨"News", []⟩, ⟨some "T", 0, 1, []⟩⟩] "ew" :=
  ⟨(c8_filter [⟨⟨"News", []⟩, ⟨some "T", 0, 1, []⟩⟩] "").1,
   (c8_filter [⟨⟨"News", []⟩, ⟨some "T", 0, 1, []⟩⟩] "ew").2.2.2⟩

/-! ## C7: parse output is sorted -/

/-- C7. After parsing any feed, every channel's programme list is sorted
non-decreasing by start, and the channel list is sorted by display name,
regardless of feed order. -/
theorem c7_parse_sorted : ∀ root : XmlElem,
    (∀ ch, ch ∈ parse_xml root → List.Sorted progLE ch.programmes)
  ∧ List.Sorted nameLE (parse_xml root) := by
  intro root
  constructor
  · intro ch hch
    have hmem : ch ∈ sortedChannelRecs
        (attachProgrammes (foldChannels (root.findall "channel"))
          (root.findall "programme")) := by
      unfold parse_xml at hch
      exact (List.perm_insertionSort nameLE _).subset hch
    unfold sortedChannelRecs at hmem
    simp only [List.mem_map] at hmem
    obtain ⟨p, _, hp⟩ := hmem
    rw [← hp]
    exact List.sorted_insertionSort progLE _
  · exact List.sorted_insertionSort nameLE _

/-- Closed instantiation of C7 on a concrete out-of-order feed. -/
theorem c7_witness :
    List.Sorted nameLE (parse_xml c7root)
  ∧ List.Sorted progLE c7chanA.programmes :=
  ⟨(c7_parse_sorted c7root).2,
   (c7_parse_sorted c7root).1 c7chanA (by decide)⟩

/-! ## C9: title fallback -/

/-- C9 counterexample. A programme whose `title` child is present but has
no text is parsed with a `None` title: the fallback placeholder is used
only when the `title` element is absent, so parsed titles are not always
non-null text. -/
theorem c9_counterexample :
    parse_xml c9root = [⟨"News", [c9prog]⟩]
  ∧ c9prog.title = none := by
  refine ⟨by decide, rfl⟩

/-- C9 amended. The parser falls back to the placeholder "No Title" only
when the programme element has no `title` child; when a `title` child is
present, the stored title is that child's text, which may be null. -/
theorem c9_amended : ∀ e : XmlElem,
    (e.find "title" = none → parseTitle e = some "No Title")
  ∧ (∀ te, e.find "title" = some te → parseTitle e = te.text) := by
  intro e
  constructor
  · intro h
    unfold parseTitle
    rw [h]
  · intro te h
    unfold parseTitle
    rw [h]

/-- Closed instantiation of C9's amended behaviour: fallback on a missing
title child, and the raw (null) text on an empty title child. -/
theorem c9_witness :
    parseTitle (.mk "programme" [] none []) = some "No Title"
  ∧ parseTitle (.mk "programme" [] none [ .mk "title" [] none [] ]) = none :=
  ⟨(c9_amended (.mk "programme" [] none [])).1 rfl,
   (c9_amended (.mk "programme" [] none [ .mk "title" [] none [] ])).2
     (.mk "title" [] none []) rfl⟩

/-! ## Dictionary lemmas -/

theorem lookup_cons_ite {α : Type} (k1 j : String) (v1 : α) (es : List (String × α)) :
    ((k1, v1) :: es).lookup j = if j = k1 then some v1 else es.lookup j := by
  rw [List.lookup_cons]
  by_cases h : j = k1
  · simp [h]
  · have hb : (j == k1) = false := beq_eq_false_iff_ne.mpr h
    rw [hb, if_neg h]

theorem lookup_setMap {α : Type} (m : List (String × α)) (k j : String) (v : α) :
    (m.map (fun p => if p.1 = k then (k, v) else p)).lookup j
      = if j = k then (m.lookup k).map (fun _ => v) else m.lookup j := by
  induction m with
  | nil => simp
  | cons p m ih =>
    obtain ⟨k1, v1⟩ := p
    by_cases h1 : k1 = k <;> by_cases hj : j = k <;> by_cases hj1 : j = k1 <;>
      simp_all [lookup_cons_ite]

theorem lookup_dictSet {α : Type} (m : List (String × α)) (k j : String) (v : α) :
    (dictSet m k v).lookup j = if j = k then some v else m.lookup j := by
  unfold dictSet
  by_cases hm : (m.lookup k).isSome
  · rw [if_pos hm, lookup_setMap]
    by_cases hj : j = k
    · subst hj
      rw [if_pos rfl, if_pos rfl]
      obtain ⟨r, hr⟩ := Option.isSome_iff_exists.mp hm
      rw [hr]
      rfl
    · simp [hj]
  · rw [if_neg hm, List.lookup_append]
    rw [Option.not_isSome_iff_eq_none] at hm
    by_cases hj : j = k
    · subst hj
      rw [hm]
      simp [lookup_cons_ite]
    · cases hlm : m.lookup j <;> simp [lookup_cons_ite, hj, hlm]

theorem lookup_dictUpdate {α : Type} (m : List (String × α)) (k j : String) (f : α → α) :
    (dictUpdate m k f).lookup j
      = if j = k then (m.lookup k).map f else m.lookup j := by
  induction m with
  | nil => simp [dictUpdate]
  | cons p m ih =>
    obtain ⟨k1, v1⟩ := p
    simp only [dictUpdate, List.map_cons] at ih ⊢
    by_cases h1 : k1 = k <;> by_cases hj : j = k <;> by_cases hj1 : j = k1 <;>
      simp_all [lookup_cons_ite]

/-! ## C6: attribute / child-tag collision semantics -/

theorem lookup_addAttrText_self (m : List (String × AttrValue)) (tag v : String) :
    (addAttrText m tag v).lookup tag =
      match m.lookup tag with
      | none => some (.str v)
      | some (.str old) => some (.list [old, v])
      | some (.list l) => some (.list (l ++ [v])) := by
  unfold addAttrText
  cases h : m.lookup tag with
  | none => simp [lookup_dictSet]
  | some av => cases av <;> simp [h, lookup_dictSet]

theorem lookup_addAttrText_ne (m : List (String × AttrValue)) (tag v j : String)
    (h : j ≠ tag) : (addAttrText m tag v).lookup j = m.lookup j := by
  unfold addAttrText
  cases hm : m.lookup tag with
  | none => simp [lookup_dictSet, h]
  | some av => cases av <;> simp [lookup_dictSet, h]

theorem attrStep_lookup (m : List (String × AttrValue)) (c : XmlElem) (k : String) :
    (attrStep m c).lookup k =
      match childText? k c with
      | none =>
        (match c.text with
          | some t =>
            if pyStrip t = "" then m.lookup k
            else if c.tag = k then m.lookup k else m.lookup k
          | none => m.lookup k)
      | some t => -- the child contributes `t` under key `k`
        (match m.lookup k with
          | none => some (.str t)
          | some (.str old) => some (.list [old, t])
          | some (.list l) => some (.list (l ++ [t]))) := by
  unfold attrStep childText?
  by_cases htag : c.tag = k
  · cases hct : c.text with
    | none => simp [htag]
    | some t =>
      by_cases hs : pyStrip t = ""
      · simp [htag, hs]
      · subst htag
        simp only [hs, if_neg, if_pos rfl, ite_false]
        rw [lookup_addAttrText_self]
        simp [hs]
  · cases hct : c.text with
    | none => simp [htag]
    | some t =>
      by_cases hs : pyStrip t = ""
      · simp [htag, hs]
      · simp only [htag, hs, ite_false, if_neg]
        rw [lookup_addAttrText_ne _ _ _ _ (fun hk => htag hk.symm)]

theorem attrFold_lookup : ∀ (cs : List XmlElem) (m : List (String × AttrValue)) (k : String),
    (cs.foldl attrStep m).lookup k = collapseTexts (m.lookup k) (childTexts k cs)
  | [], m, k => by
    simp [childTexts, collapseTexts]
  | c :: cs, m, k => by
    rw [List.foldl_cons, attrFold_lookup cs (attrStep m c) k]
    unfold childTexts
    rw [List.filterMap_cons]
    cases hct : childText? k c with
    | none =>
      have hstep : (attrStep m c).lookup k = m.lookup k := by
        rw [attrStep_lookup, hct]
        cases c.text with
        | none => rfl
        | some t => by_cases hs : pyStrip t = "" <;> simp [hs]
      rw [hstep]
    | some t =>
      have hstep : (attrStep m c).lookup k =
          match m.lookup k with
          | none => some (.str t)
          | some (.str old) => some (.list [old, t])
          | some (.list l) => some (.list (l ++ [t])) := by
        rw [attrStep_lookup, hct]
      rw [hstep]
      cases hm : m.lookup k with
      | none => rfl
      | some av => cases av <;> rfl

theorem collapseTexts_some_list : ∀ (ts : List String) (l : List String),
    collapseTexts (some (.list l)) ts = some (.list (l ++ ts))
  | [], l => by simp [collapseTexts]
  | t :: ts, l => by
    rw [show collapseTexts (some (.list l)) (t :: ts)
          = collapseTexts (some (.list (l ++ [t]))) ts from rfl,
        collapseTexts_some_list ts (l ++ [t])]
    simp

theorem collapseTexts_some_str (a : String) (ts : List String) (h : ts ≠ []) :
    collapseTexts (some (.str a)) ts = some (.list (a :: ts)) := by
  cases ts with
  | nil => exact absurd rfl h
  | cons t ts =>
    rw [show collapseTexts (some (.str a)) (t :: ts)
          = collapseTexts (some (.list [a, t])) ts from rfl,
        collapseTexts_some_list ts [a, t]]
    simp

theorem collapseTexts_none (t : String) (ts : List String) :
    collapseTexts none (t :: ts)
      = some (if ts = [] then .str t else .list (t :: ts)) := by
  rw [show collapseTexts none (t :: ts) = collapseTexts (some (.str t)) ts from rfl]
  cases ts with
  | nil => simp [collapseTexts]
  | cons t2 ts2 =>
    rw [collapseTexts_some_str t (t2 :: ts2) (by simp)]
    simp

/-- C6 counterexample. On a programme element with XML attribute
`sub-title="Attr"` and a child `<sub-title>Child</sub-title>`, the parsed
mapping stores the sequence `["Attr", "Child"]` under `sub-title`, not the
attribute's single value as the claim states. -/
theorem c6_counterexample :
    parse_xml c6root = [⟨"News", [c6prog]⟩]
  ∧ (buildAttributes c6elem).lookup "sub-title" = some (.list ["Attr", "Child"])
  ∧ (buildAttributes c6elem).lookup "sub-title" ≠ some (.str "Attr") := by
  refine ⟨by decide, by decide, by decide⟩

/-- C6 amended. The element's XML attributes seed the mapping; a child tag
colliding with a same-named attribute does not lose to it — its text is
appended, collapsing into the sequence `attribute value :: child texts`.
Repeated child tags under a key not used by any attribute collapse into an
ordered sequence of their stripped text values (a single such child stays
a scalar). -/
theorem c6_amended : ∀ (e : XmlElem) (k : String),
    (∀ a : String, (attribDict e.attrib).lookup k = some (.str a) →
        childTexts k e.children ≠ [] →
        (buildAttributes e).lookup k
          = some (.list (a :: childTexts k e.children)))
  ∧ (∀ (t : String) (ts : List String),
        (attribDict e.attrib).lookup k = none →
        childTexts k e.children = t :: ts →
        (buildAttributes e).lookup k
          = some (if ts = [] then .str t else .list (t :: ts))) := by
  intro e k
  constructor
  · intro a ha hne
    unfold buildAttributes
    rw [attrFold_lookup, ha, collapseTexts_some_str a _ hne]
  · intro t ts ha hct
    unfold buildAttributes
    rw [attrFold_lookup, ha, hct, collapseTexts_none]

/-- Closed instantiation of C6's amended collision rule on `c6elem`. -/
theorem c6_witness :
    (buildAttributes c6elem).lookup "sub-title"
      = some (.list ("Attr" :: childTexts "sub-title" c6elem.children)) :=
  (c6_amended c6elem "sub-title").1 "Attr" (by decide) (by decide)

/-! ## C5: timestamp format and per-programme failure isolation -/

theorem take2_mem (cs : List Char) (v : Nat) (rest : List Char)
    (h : take2 cs = some (v, rest)) : ∀ x ∈ rest, x ∈ cs := by
  match cs with
  | [] => simp [take2] at h
  | [c] => simp [take2] at h
  | c1 :: c2 :: cs' =>
    intro x hx
    simp only [take2] at h
    cases h1 : digitVal? c1 with
    | none => rw [h1] at h; simp at h
    | some a =>
      cases h2 : digitVal? c2 with
      | none => rw [h1, h2] at h; simp at h
      | some b =>
        rw [h1, h2] at h
        simp only [Option.some.injEq, Prod.mk.injEq] at h
        exact List.mem_cons_of_mem _ (List.mem_cons_of_mem _ (h.2 ▸ hx))

theorem takeSpaces1_space (cs rest : List Char) (h : takeSpaces1 cs = some rest) :
    ∃ c ∈ cs, pyIsSpace c = true := by
  match cs with
  | [] => simp [takeSpaces1] at h
  | c :: cs' =>
    by_cases hc : pyIsSpace c
    · exact ⟨c, List.mem_cons_self c cs', hc⟩
    · simp [takeSpaces1, hc] at h

theorem parseTS_space (cs : List Char) (t : Int) (h : parseTS cs = some t) :
    ∃ c ∈ cs, pyIsSpace c = true := by
  simp only [parseTS, bind, Option.bind_eq_some] at h
  obtain ⟨⟨y1, cs1⟩, h1, h⟩ := h
  obtain ⟨⟨y2, cs2⟩, h2, h⟩ := h
  obtain ⟨⟨mo, cs3⟩, h3, h⟩ := h
  obtain ⟨⟨dy, cs4⟩, h4, h⟩ := h
  obtain ⟨⟨hh, cs5⟩, h5, h⟩ := h
  obtain ⟨⟨mi, cs6⟩, h6, h⟩ := h
  obtain ⟨⟨ss, cs7⟩, h7, h⟩ := h
  rw [ite_eq_iff] at h
  rcases h with ⟨_, h⟩ | ⟨_, h⟩
  · simp only [Option.bind_eq_some] at h
    obtain ⟨cs8, h8, _⟩ := h
    obtain ⟨c, hc, hcs⟩ := takeSpaces1_space cs7 cs8 h8
    exact ⟨c,
      take2_mem cs _ _ h1 _ (take2_mem cs1 _ _ h2 _ (take2_mem cs2 _ _ h3 _
        (take2_mem cs3 _ _ h4 _ (take2_mem cs4 _ _ h5 _ (take2_mem cs5 _ _ h6 _
          (take2_mem cs6 _ _ h7 _ hc)))))), hcs⟩
  · simp at h

theorem parseProgramme_eq_none (e : XmlElem)
    (h : (e.get "start").bind parseTimestamp = none
       ∨ (e.get "stop").bind parseTimestamp = none) :
    parseProgramme e = none := by
  simp only [parseProgramme, bind]
  rcases h with h | h
  · rw [h]
    rfl
  · cases hs : (e.get "start").bind parseTimestamp with
    | none => rfl
    | some s => simp [hs, h]

theorem progStep_of_parse_none (e : XmlElem) (m : List (String × ChannelRec))
    (h : parseProgramme e = none) : progStep m e = m := by
  unfold progStep
  cases hc : e.get "channel" with
  | none => rfl
  | some i =>
    by_cases hm : (m.lookup i).isSome
    · simp [hm, h]
    · simp [hm]

/-- C5 counterexample. A timestamp without the offset suffix is rejected
(the format's `%z` and the whitespace before it are mandatory), so the
programme of `c5root` whose `start` is `"20240101100000"` is skipped, while
the identical string with a suffix parses. -/
theorem c5_counterexample :
    parse_xml c5root = [⟨"News", []⟩]
  ∧ parseTimestamp "20240101100000" = none
  ∧ parseTimestamp "20240101100000 +0000" = some 1704103200 := by
  refine ⟨by decide, by decide, by decide⟩

/-- C5 amended. `start`/`stop` are parsed as `YYYYMMDDHHMMSS` followed by a
mandatory whitespace-separated UTC offset suffix: any accepted timestamp
contains whitespace, so a bare `YYYYMMDDHHMMSS` string is rejected. When
`start` or `stop` of a programme element fails to parse, only that single
programme is dropped: the rest of the feed parses exactly as if the bad
element were absent. -/
theorem c5_amended :
    (∀ (s : String) (t : Int), parseTimestamp s = some t →
      ∃ c ∈ s.data, pyIsSpace c = true)
  ∧ (∀ (e : XmlElem) (m : List (String × ChannelRec)) (pre post : List XmlElem),
      ((e.get "start").bind parseTimestamp = none
        ∨ (e.get "stop").bind parseTimestamp = none) →
      attachProgrammes m (pre ++ e :: post) = attachProgrammes m (pre ++ post)) := by
  constructor
  · intro s t h
    exact parseTS_space s.data t h
  · intro e m pre post h
    unfold attachProgrammes
    rw [List.foldl_append, List.foldl_append, List.foldl_cons,
        progStep_of_parse_none e _ (parseProgramme_eq_none e h)]

/-- Closed instantiation of C5's amended clauses at `c5badProg`. -/
theorem c5_witness :
    (∃ c ∈ ("20240101100000 +0000" : String).data, pyIsSpace c = true)
  ∧ attachProgrammes [] ([] ++ c5badProg :: []) = attachProgrammes [] ([] ++ []) :=
  ⟨c5_amended.1 "20240101100000 +0000" 1704103200 (by decide),
   c5_amended.2 c5badProg [] [] [] (Or.inl (by decide))⟩

/-! ## C10: duplicate channel ids -/

theorem lookup_foldChannels_aux :
    ∀ (es : List XmlElem) (m : List (String × ChannelRec)) (i : String),
    ((es.foldl chanStep m).lookup i)
      = match lastValidChannelSpec es i with
        | some r => some r
        | none => m.lookup i
  | [], m, i => by simp [lastValidChannelSpec]
  | e :: es, m, i => by
    rw [List.foldl_cons, lookup_foldChannels_aux es (chanStep m e) i]
    unfold lastValidChannelSpec
    rw [List.reverse_cons, List.findSome?_append]
    cases hl : (es.reverse).findSome? (chanOffer i) with
    | some r => simp [hl]
    | none =>
      simp only [hl, Option.none_or]
      show (chanStep m e).lookup i
        = match [e].findSome? (chanOffer i) with
          | some r => some r
          | none => m.lookup i
      rw [List.findSome?_cons]
      unfold chanStep chanOffer
      cases hp : parseChannelElem? e with
      | none => simp
      | some p =>
        obtain ⟨j, r⟩ := p
        by_cases hij : j = i
        · subst hij
          simp [lookup_dictSet]
        · have hji : ¬ i = j := fun hh => hij hh.symm
          simp [lookup_dictSet, hij, hji]

theorem lookup_attachProgrammes :
    ∀ (ps : List XmlElem) (m : List (String × ChannelRec)) (i : String)
      (r : ChannelRec), m.lookup i = some r →
    (attachProgrammes m ps).lookup i
      = some { r with programmes := r.programmes ++ ps.filterMap (progFor i) }
  | [], m, i, r, h => by simp [attachProgrammes, h]
  | e :: ps, m, i, r, h => by
    show (attachProgrammes (progStep m e) ps).lookup i = _
    cases hc : e.get "channel" with
    | none =>
      have hpf : progFor i e = none := by unfold progFor; rw [hc]
      have hps : progStep m e = m := by unfold progStep; rw [hc]
      rw [hps, lookup_attachProgrammes ps m i r h]
      simp [List.filterMap_cons, hpf]
    | some j =>
      by_cases hij : j = i
      · subst hij
        have hms : (m.lookup j).isSome := by rw [h]; rfl
        cases hp : parseProgramme e with
        | none =>
          have hpf : progFor j e = none := by
            unfold progFor; rw [hc]; simp [hp]
          have hps : progStep m e = m := by
            unfold progStep; rw [hc]; simp [hms, hp]
          rw [hps, lookup_attachProgrammes ps m j r h]
          simp [List.filterMap_cons, hpf]
        | some p =>
          have hpf : progFor j e = some p := by
            unfold progFor; rw [hc]; simp [hp]
          have hps : progStep m e
              = dictUpdate m j (fun rr => { rr with programmes := rr.programmes ++ [p] }) := by
            unfold progStep; rw [hc]; simp [hms, hp]
          have h2 : (dictUpdate m j
              (fun rr => { rr with programmes := rr.programmes ++ [p] })).lookup j
              = some { r with programmes := r.programmes ++ [p] } := by
            rw [lookup_dictUpdate]
            simp [h]
          rw [hps, lookup_attachProgrammes ps _ j _ h2]
          simp [List.filterMap_cons, hpf, List.append_assoc]
      · have hpf : progFor i e = none := by
          unfold progFor; rw [hc]; simp [hij]
        have hstep : (progStep m e).lookup i = some r := by
          unfold progStep
          rw [hc]
          by_cases hms : (m.lookup j).isSome
          · cases hp : parseProgramme e with
            | none => simp [hms, hp, h]
            | some p =>
              have hji : ¬ i = j := fun hh => hij hh.symm
              simp [hms, hp, lookup_dictUpdate, hji, h]
          · simp [hms, h]
        rw [lookup_attachProgrammes ps (progStep m e) i r hstep]
        simp [List.filterMap_cons, hpf]

/-- C10. Later valid channel elements sharing an id overwrite earlier ones:
the id-to-channel mapping holds exactly the last valid element with that id
in document order; and every programme element referencing an id is
appended (in order, when it parses) to whatever record the mapping holds
under that id. -/
theorem c10_duplicate_ids : ∀ (es : List XmlElem) (i : String),
    (foldChannels es).lookup i = lastValidChannelSpec es i
  ∧ (∀ (m : List (String × ChannelRec)) (r : ChannelRec) (ps : List XmlElem),
      m.lookup i = some r →
      (attachProgrammes m ps).lookup i
        = some { r with programmes := r.programmes ++ ps.filterMap (progFor i) }) := by
  intro es i
  constructor
  · unfold foldChannels
    rw [lookup_foldChannels_aux]
    cases lastValidChannelSpec es i <;> simp
  · intro m r ps h
    exact lookup_attachProgrammes ps m i r h

/-- Closed instantiation of C10 on a feed with two channels sharing id "1":
the mapping keeps the second ("B"), and the programme attaches to it. -/
theorem c10_witness :
    (foldChannels [c10elemA, c10elemB]).lookup "1"
      = lastValidChannelSpec [c10elemA, c10elemB] "1"
  ∧ (attachProgrammes (foldChannels [c10elemA, c10elemB]) [c10prog]).lookup "1"
      = some ⟨"B", [c10prog].filterMap (progFor "1")⟩ :=
  ⟨(c10_duplicate_ids [c10elemA, c10elemB] "1").1,
   (c10_duplicate_ids [c10elemA, c10elemB] "1").2
     (foldChannels [c10elemA, c10elemB]) ⟨"B", []⟩ [c10prog] (by decide)⟩

/-- Closed instantiation of C4's amended formula and bounds. -/
theorem c4_witness :
    progressPercent 0 1000 567
      = min 100 (max 0 ⌊(100 : ℚ) * (567 - 0) / (1000 - 0)⌋)
  ∧ 0 ≤ progressPercent 0 1000 567
  ∧ (progressBar 56).length = 10 :=
  ⟨(c4_amended 0 1000 567).2.2.2.1 (by norm_num),
   (c4_amended 0 1000 567).2.1,
   (c4_amended 0 1000 567).2.2.2.2.2 56 (by norm_num) (by norm_num)⟩

end EPGi
